import Mathlib

/-!
Verification of the ConversationApp audio-capture / playback / transcription-queue
core, as a shallow embedding in Lean.

The embeddings translate, function by function:
  - client/src/store/promptsStore.ts (session store: transcription queue,
    resetSession),
  - client/src/lib/audio.ts (AudioRecorderService, AudioPlayerService,
    formatTime),
  - the TranscriptionQueue component (completion-eviction effect) and the
    background transcription dispatch in the recording save handler.

Machine reals (JS numbers) are modelled as rationals; a possibly-NaN duration
is an Option; blobs are lists of abstract chunks.
-/

namespace ConversationApp

/-! ### Transcription queue data model (promptsStore.ts, SessionState slice) -/

inductive JobStatus where
  | pending
  | processing
  | completed
  | failed
deriving DecidableEq, Repr

/-- interface TranscriptionQueueItem of promptsStore.ts. -/
structure TranscriptionQueueItem where
  conversationId : Nat
  audioPath : String
  status : JobStatus
  error : Option String
deriving DecidableEq, Repr

/-- The argument of addToTranscriptionQueue: a TranscriptionQueueItem with the
status field omitted (Omit of status in the source). -/
structure NewQueueItem where
  conversationId : Nat
  audioPath : String
deriving DecidableEq, Repr

/-- A partial TranscriptionQueueItem, the update argument of
updateTranscriptionQueueItem; a present field overrides, an absent field keeps
the old value (object spread in the source). -/
structure QueueItemUpdate where
  conversationId : Option Nat := none
  audioPath : Option String := none
  status : Option JobStatus := none
  error : Option String := none
deriving DecidableEq, Repr

/-- Object spread of a partial update over an item. -/
def mergeItem (item : TranscriptionQueueItem) (u : QueueItemUpdate) :
    TranscriptionQueueItem :=
  { conversationId := u.conversationId.getD item.conversationId
    audioPath := u.audioPath.getD item.audioPath
    status := u.status.getD item.status
    error := match u.error with
             | some e => some e
             | none => item.error }

/-- addToTranscriptionQueue of promptsStore.ts: appends the item with status
pending to the end of the queue array. -/
def addToTranscriptionQueue (item : NewQueueItem)
    (q : List TranscriptionQueueItem) : List TranscriptionQueueItem :=
  q ++ [{ conversationId := item.conversationId
          audioPath := item.audioPath
          status := .pending
          error := none }]

/-- updateTranscriptionQueueItem of promptsStore.ts: maps over the queue and
merges the update into every item whose conversationId matches. -/
def updateTranscriptionQueueItem (conversationId : Nat) (u : QueueItemUpdate)
    (q : List TranscriptionQueueItem) : List TranscriptionQueueItem :=
  q.map (fun item =>
    if item.conversationId = conversationId then mergeItem item u else item)

/-- removeFromTranscriptionQueue of promptsStore.ts: filters the item out. -/
def removeFromTranscriptionQueue (conversationId : Nat)
    (q : List TranscriptionQueueItem) : List TranscriptionQueueItem :=
  q.filter (fun item => item.conversationId ≠ conversationId)

/-- Number of jobs in the queue carrying a given conversationId. -/
def countWithId (i : Nat) (q : List TranscriptionQueueItem) : Nat :=
  (q.filter (fun j => j.conversationId = i)).length

/-! ### Session store (promptsStore.ts, useSessionStore) -/

inductive SessionTab where
  | transcript
  | analysis
deriving DecidableEq, Repr

/-- currentSessionData.  The source field named class is a reserved word in
Lean and is embedded as classField. -/
structure SessionData where
  studentName : String
  classField : String
  conversationTypeId : Option Nat
  date : String
deriving DecidableEq, Repr

/-- A blob is an abstract list of encoded chunks. -/
abbrev Blob := List Nat

/-- interface RecordingState of audio.ts. -/
structure RecordingState where
  isRecording : Bool
  isPaused : Bool
  duration : ℚ
  audioBlob : Option Blob
  audioLevel : Option ℚ
deriving DecidableEq, Repr

/-- interface PlayerState of audio.ts. -/
structure PlayerState where
  isPlaying : Bool
  currentTime : ℚ
  duration : ℚ
deriving DecidableEq, Repr

/-- The useSessionStore state (promptsStore.ts).  Students and conversations
are opaque to the core and are embedded as identifiers. -/
structure SessionState where
  activeTab : SessionTab
  currentSessionData : SessionData
  recordingState : RecordingState
  playbackState : PlayerState
  isTranscribing : Bool
  transcriptSearchQuery : String
  studentSuggestions : List Nat
  currentConversation : Option Nat
  transcriptionQueue : List TranscriptionQueueItem
deriving DecidableEq, Repr

/-- initialSessionData; the date is computed once at module load, embedded
here as the parameter today. -/
def initialSessionData (today : String) : SessionData :=
  { studentName := "", classField := "", conversationTypeId := none
    date := today }

def initialRecordingState : RecordingState :=
  { isRecording := false, isPaused := false, duration := 0
    audioBlob := none, audioLevel := none }

def initialPlaybackState : PlayerState :=
  { isPlaying := false, currentTime := 0, duration := 0 }

/-- resetSession of promptsStore.ts: a partial set; only the listed fields are
replaced, every other field of the store (activeTab, studentSuggestions and in
particular transcriptionQueue) is left as it was. -/
def resetSession (today : String) (s : SessionState) : SessionState :=
  { s with
    currentSessionData := initialSessionData today
    recordingState := initialRecordingState
    playbackState := initialPlaybackState
    isTranscribing := false
    transcriptSearchQuery := ""
    currentConversation := none }

/-- The store action addToTranscriptionQueue lifted to the whole state. -/
def storeAddToQueue (item : NewQueueItem) (s : SessionState) : SessionState :=
  { s with transcriptionQueue := addToTranscriptionQueue item s.transcriptionQueue }

/-- The store action updateTranscriptionQueueItem lifted to the whole state. -/
def storeUpdateQueueItem (conversationId : Nat) (u : QueueItemUpdate)
    (s : SessionState) : SessionState :=
  { s with transcriptionQueue :=
      updateTranscriptionQueueItem conversationId u s.transcriptionQueue }

/-! ### PlaybackEngine (AudioPlayerService of audio.ts) -/

/-- An HTMLAudioElement as the player sees it.  duration is none while the
resource metadata has not produced a finite duration (NaN in the browser);
the idiom duration or-else 0 in the source maps none to 0. -/
structure AudioEl where
  currentTime : ℚ
  duration : Option ℚ
  paused : Bool
deriving DecidableEq, Repr

/-- The JS expression duration-or-zero: a missing (NaN) duration reads as 0. -/
def jsOr0 : Option ℚ → ℚ
  | none => 0
  | some d => d

/-- The AudioPlayerService state; only the audio element matters for the
transport operations (the telemetry callback and timer are unobservable
here). -/
structure AudioPlayerService where
  audio : Option AudioEl
deriving DecidableEq, Repr

/-- seek of AudioPlayerService: currentTime becomes
max 0 (min time (duration or 0)). -/
def seek (time : ℚ) (p : AudioPlayerService) : AudioPlayerService :=
  match p.audio with
  | none => p
  | some a => { audio := some { a with currentTime := max 0 (min time (jsOr0 a.duration)) } }

/-- rewind of AudioPlayerService: currentTime becomes
max 0 (currentTime - seconds); the source default for seconds is 5. -/
def rewind (seconds : ℚ) (p : AudioPlayerService) : AudioPlayerService :=
  match p.audio with
  | none => p
  | some a => { audio := some { a with currentTime := max 0 (a.currentTime - seconds) } }

/-- forward of AudioPlayerService: currentTime becomes
min (duration or 0) (currentTime + seconds); the source default is 5. -/
def forward (seconds : ℚ) (p : AudioPlayerService) : AudioPlayerService :=
  match p.audio with
  | none => p
  | some a => { audio := some { a with currentTime := min (jsOr0 a.duration) (a.currentTime + seconds) } }

/-- The currentTime the player would report (0 with no element loaded). -/
def currentTimeOf (p : AudioPlayerService) : ℚ :=
  match p.audio with
  | none => 0
  | some a => a.currentTime

/-! ### Theorems about the playback engine (claim C2) -/

/-- Claim C2, counterexample: with duration unknown (metadata NaN) and
currentTime 3, seek 10 sets currentTime to 0 — the target IS clamped from
above (by duration-or-0 = 0), refuting the claim that with unknown duration
only the lower bound 0 is applied (which would leave currentTime at 10). -/
theorem seek_unknown_duration_counterexample :
    currentTimeOf (seek 10
      { audio := some { currentTime := 3, duration := none, paused := true } }) = 0
    ∧ (0 : ℚ) ≠ 10 := by
  constructor
  · simp [seek, currentTimeOf, jsOr0]
  · norm_num

/-- Claim C2 (amended): after seek, rewind or forward on a loaded player,
currentTime lies in the interval from 0 to duration-or-0 — forward past the
end and rewind before the start included — but an unknown duration is read
as 0, so seek and forward then clamp the target down to 0 rather than
applying only the lower bound (rewind, which has no upper clamp, is the only
operation applying just the lower bound). -/
theorem transport_clamps_currentTime (a : AudioEl) (t n : ℚ)
    (h0 : 0 ≤ a.currentTime) (h1 : a.currentTime ≤ jsOr0 a.duration)
    (hn : 0 ≤ n) :
    (0 ≤ currentTimeOf (seek t { audio := some a }) ∧
      currentTimeOf (seek t { audio := some a }) ≤ jsOr0 a.duration) ∧
    (0 ≤ currentTimeOf (rewind n { audio := some a }) ∧
      currentTimeOf (rewind n { audio := some a }) ≤ jsOr0 a.duration) ∧
    (0 ≤ currentTimeOf (forward n { audio := some a }) ∧
      currentTimeOf (forward n { audio := some a }) ≤ jsOr0 a.duration) ∧
    (a.duration = none →
      currentTimeOf (seek t { audio := some a }) = 0 ∧
      currentTimeOf (forward n { audio := some a }) = 0) := by
  have hd : 0 ≤ jsOr0 a.duration := h0.trans h1
  refine ⟨⟨?_, ?_⟩, ⟨?_, ?_⟩, ⟨?_, ?_⟩, ?_⟩
  · simp [seek, currentTimeOf]
  · simp only [seek, currentTimeOf]
    exact max_le hd (min_le_right _ _)
  · simp [rewind, currentTimeOf]
  · simp only [rewind, currentTimeOf]
    exact max_le hd ((sub_le_self _ hn).trans h1)
  · simp only [forward, currentTimeOf]
    exact le_min hd (add_nonneg h0 hn)
  · simp only [forward, currentTimeOf]
    exact min_le_left _ _
  · intro hnone
    simp only [seek, forward, currentTimeOf, hnone, jsOr0]
    constructor
    · have : min t (0 : ℚ) ≤ 0 := min_le_right _ _
      exact max_eq_left this
    · exact min_eq_left (add_nonneg h0 hn)

/-- Witness for claim C2: a loaded player at currentTime 2 with duration 30,
seek target 100 and step 5. -/
theorem transport_clamps_currentTime_witness :
    (0 ≤ currentTimeOf (seek 100
        { audio := some { currentTime := 2, duration := some 30, paused := false } }) ∧
      currentTimeOf (seek 100
        { audio := some { currentTime := 2, duration := some 30, paused := false } })
        ≤ jsOr0 (some 30)) ∧
    (0 ≤ currentTimeOf (rewind 5
        { audio := some { currentTime := 2, duration := some 30, paused := false } }) ∧
      currentTimeOf (rewind 5
        { audio := some { currentTime := 2, duration := some 30, paused := false } })
        ≤ jsOr0 (some 30)) ∧
    (0 ≤ currentTimeOf (forward 5
        { audio := some { currentTime := 2, duration := some 30, paused := false } }) ∧
      currentTimeOf (forward 5
        { audio := some { currentTime := 2, duration := some 30, paused := false } })
        ≤ jsOr0 (some 30)) ∧
    ((some (30 : ℚ) = none) →
      currentTimeOf (seek 100
        { audio := some { currentTime := 2, duration := some 30, paused := false } }) = 0 ∧
      currentTimeOf (forward 5
        { audio := some { currentTime := 2, duration := some 30, paused := false } }) = 0) :=
  transport_clamps_currentTime
    { currentTime := 2, duration := some 30, paused := false } 100 5
    (by norm_num) (by norm_num [jsOr0]) (by norm_num)

/-! ### Theorems about the queue store (claims C1, C7, C9) -/

/-- Claim C1, counterexample: enqueueing conversationId 1 twice via
addToTranscriptionQueue leaves two jobs with that id in the queue, refuting
the claim that after any two enqueues with the same id exactly one job with
that id exists (the store action appends, it does not upsert). -/
theorem addToTranscriptionQueue_duplicates_counterexample :
    countWithId 1
      (addToTranscriptionQueue { conversationId := 1, audioPath := "a.wav" }
        (addToTranscriptionQueue { conversationId := 1, audioPath := "a.wav" } []))
      = 2 ∧ (2 : Nat) ≠ 1 := by
  constructor
  · rfl
  · decide

/-- Claim C1 (amended): addToTranscriptionQueue always appends a fresh job in
status pending, even when a job with the same conversationId is already
present; after two enqueues with the same id the queue holds exactly two more
jobs with that id than before, never one. -/
theorem addToTranscriptionQueue_appends_never_overwrites
    (q : List TranscriptionQueueItem) (item : NewQueueItem) :
    addToTranscriptionQueue item q
      = q ++ [{ conversationId := item.conversationId
                audioPath := item.audioPath
                status := .pending, error := none }] ∧
    countWithId item.conversationId
        (addToTranscriptionQueue item (addToTranscriptionQueue item q))
      = countWithId item.conversationId q + 2 := by
  refine ⟨rfl, ?_⟩
  simp [addToTranscriptionQueue, countWithId, List.filter_append]

/-- Claim C7: resetSession restores currentSessionData, recordingState,
playbackState, isTranscribing, transcriptSearchQuery and currentConversation
to their initial values while leaving transcriptionQueue exactly unchanged. -/
theorem resetSession_clears_session_preserves_queue
    (today : String) (s : SessionState) :
    (resetSession today s).currentSessionData = initialSessionData today ∧
    (resetSession today s).recordingState = initialRecordingState ∧
    (resetSession today s).playbackState = initialPlaybackState ∧
    (resetSession today s).isTranscribing = false ∧
    (resetSession today s).transcriptSearchQuery = "" ∧
    (resetSession today s).currentConversation = none ∧
    (resetSession today s).transcriptionQueue = s.transcriptionQueue :=
  ⟨rfl, rfl, rfl, rfl, rfl, rfl, rfl⟩

/-- Claim C9: updating a conversationId that is absent from the queue leaves
the whole store state unchanged (a silent no-op, no error is possible since
the function is total); when present, exactly the matching positions receive
the merged fields and every other job is unchanged in place. -/
theorem updateTranscriptionQueueItem_noop_or_targeted
    (s : SessionState) (i : Nat) (u : QueueItemUpdate) :
    ((∀ j ∈ s.transcriptionQueue, j.conversationId ≠ i) →
        storeUpdateQueueItem i u s = s) ∧
    (storeUpdateQueueItem i u s).transcriptionQueue.length
        = s.transcriptionQueue.length ∧
    (∀ k, (hk : k < s.transcriptionQueue.length) →
      (storeUpdateQueueItem i u s).transcriptionQueue[k]?
        = some (if (s.transcriptionQueue.get ⟨k, hk⟩).conversationId = i
                then mergeItem (s.transcriptionQueue.get ⟨k, hk⟩) u
                else s.transcriptionQueue.get ⟨k, hk⟩)) := by
  refine ⟨?_, ?_, ?_⟩
  · intro h
    have hmap : updateTranscriptionQueueItem i u s.transcriptionQueue
        = s.transcriptionQueue := by
      unfold updateTranscriptionQueueItem
      calc s.transcriptionQueue.map (fun item =>
              if item.conversationId = i then mergeItem item u else item)
          = s.transcriptionQueue.map id := by
            apply List.map_congr_left
            intro a ha
            simp [h a ha]
        _ = s.transcriptionQueue := List.map_id _
    unfold storeUpdateQueueItem
    rw [hmap]
  · simp [storeUpdateQueueItem, updateTranscriptionQueueItem]
  · intro k hk
    simp only [storeUpdateQueueItem, updateTranscriptionQueueItem,
      List.getElem?_map, List.get_eq_getElem]
    rw [List.getElem?_eq_getElem hk]
    rfl

/-- Witness for claim C9 at a concrete store: updating the absent id 2 on a
one-job queue is the identity on the store. -/
theorem updateTranscriptionQueueItem_noop_witness :
    storeUpdateQueueItem 2 { status := some .processing }
      { activeTab := .transcript
        currentSessionData := initialSessionData "2025-01-01"
        recordingState := initialRecordingState
        playbackState := initialPlaybackState
        isTranscribing := false
        transcriptSearchQuery := ""
        studentSuggestions := []
        currentConversation := none
        transcriptionQueue :=
          [{ conversationId := 1, audioPath := "a.wav"
             status := .pending, error := none }] }
      = { activeTab := .transcript
          currentSessionData := initialSessionData "2025-01-01"
          recordingState := initialRecordingState
          playbackState := initialPlaybackState
          isTranscribing := false
          transcriptSearchQuery := ""
          studentSuggestions := []
          currentConversation := none
          transcriptionQueue :=
            [{ conversationId := 1, audioPath := "a.wav"
               status := .pending, error := none }] } :=
  (updateTranscriptionQueueItem_noop_or_targeted _ 2 _).1 (by decide)

/-! ### formatTime (audio.ts) -/

/-- A JS value flowing into formatTime: the guard of the source distinguishes
undefined, null, NaN and the infinities from finite numbers. -/
inductive JSNumber where
  | undef
  | null
  | nan
  | posInf
  | negInf
  | fin (val : ℚ)
deriving DecidableEq, Repr

/-- JS truncation toward zero (the rounding used by the % operator). -/
def jsTrunc (q : ℚ) : ℤ :=
  if 0 ≤ q then ⌊q⌋ else ⌈q⌉

/-- The JS remainder operator on numbers: a - b * trunc (a / b). -/
def jsRem (a b : ℚ) : ℚ :=
  a - b * (jsTrunc (a / b) : ℚ)

/-- toString with padStart 2 "0" of the source. -/
def pad2 (n : ℕ) : String :=
  if n < 10 then "0" ++ toString n else toString n

/-- formatTime of audio.ts: invalid inputs give "0:00"; otherwise the value is
clamped at 0 and decomposed with Math.floor and the % operator into hours,
minutes and seconds. -/
def formatTime (v : JSNumber) : String :=
  match v with
  | .fin q =>
    let seconds := max 0 q
    let hours := (⌊seconds / 3600⌋).toNat
    let mins := (⌊jsRem seconds 3600 / 60⌋).toNat
    let secs := (⌊jsRem seconds 60⌋).toNat
    if 0 < hours then
      toString hours ++ ":" ++ pad2 mins ++ ":" ++ pad2 secs
    else
      toString mins ++ ":" ++ pad2 secs
  | _ => "0:00"

/-- Modelled from the spec claim for C10 (a restatement of the claim, to be
compared with formatTime): undefined, null, NaN, non-finite and negative
inputs give "0:00"; a finite non-negative input is floored to whole seconds
and rendered M:SS, switching to H:MM:SS exactly when the input is at least
3600 seconds. -/
def formatTimeSpec (v : JSNumber) : String :=
  match v with
  | .fin q =>
    if q < 0 then "0:00"
    else
      let T := ⌊q⌋₊
      if 3600 ≤ q then
        toString (T / 3600) ++ ":" ++ pad2 (T / 60 % 60) ++ ":" ++ pad2 (T % 60)
      else
        toString (T / 60) ++ ":" ++ pad2 (T % 60)
  | _ => "0:00"

/-- On non-negative rationals the integer floor is the natural floor. -/
theorem int_floor_eq_nat_floor (q : ℚ) (h : 0 ≤ q) : ⌊q⌋ = (⌊q⌋₊ : ℤ) := by
  have h0 : (0 : ℤ) ≤ ⌊q⌋ := Int.le_floor.2 (by exact_mod_cast h)
  rw [← Int.toNat_of_nonneg h0, Int.floor_toNat]

/-- Floor of the quotient by 60 as a natural division. -/
theorem floor_div_sixty (q : ℚ) (h : 0 ≤ q) :
    ⌊q / (60 : ℚ)⌋ = ((⌊q⌋₊ / 60 : ℕ) : ℤ) := by
  have hq : (0 : ℚ) ≤ q / 60 := by positivity
  rw [int_floor_eq_nat_floor _ hq, Nat.floor_div_ofNat q 60]

/-- Floor of the quotient by 3600 as a natural division. -/
theorem floor_div_threesixhundred (q : ℚ) (h : 0 ≤ q) :
    ⌊q / (3600 : ℚ)⌋ = ((⌊q⌋₊ / 3600 : ℕ) : ℤ) := by
  have hq : (0 : ℚ) ≤ q / 3600 := by positivity
  rw [int_floor_eq_nat_floor _ hq, Nat.floor_div_ofNat q 3600]

/-- The seconds component of formatTime equals the whole-seconds value mod
60. -/
theorem jsRem_sixty_floor (q : ℚ) (h : 0 ≤ q) :
    (⌊jsRem q 60⌋).toNat = ⌊q⌋₊ % 60 := by
  have hq60 : (0 : ℚ) ≤ q / 60 := by positivity
  unfold jsRem jsTrunc
  rw [if_pos hq60, floor_div_sixty q h]
  have hcast : (60 : ℚ) * (((⌊q⌋₊ / 60 : ℕ) : ℤ) : ℚ)
      = (((60 * (⌊q⌋₊ / 60) : ℕ) : ℤ) : ℚ) := by push_cast; ring
  rw [hcast, Int.floor_sub_int, int_floor_eq_nat_floor q h]
  omega

/-- The minutes component of formatTime equals whole seconds div 60 mod 60. -/
theorem jsRem_threesixhundred_floor (q : ℚ) (h : 0 ≤ q) :
    (⌊jsRem q 3600 / 60⌋).toNat = ⌊q⌋₊ / 60 % 60 := by
  have hq36 : (0 : ℚ) ≤ q / 3600 := by positivity
  unfold jsRem jsTrunc
  rw [if_pos hq36, floor_div_threesixhundred q h]
  have hdiv : (q - (3600 : ℚ) * (((⌊q⌋₊ / 3600 : ℕ) : ℤ) : ℚ)) / 60
      = q / 60 - (((60 * (⌊q⌋₊ / 3600) : ℕ) : ℤ) : ℚ) := by push_cast; ring
  rw [hdiv, Int.floor_sub_int, floor_div_sixty q h]
  omega

/-- The hours component of formatTime equals whole seconds div 3600. -/
theorem hours_floor (q : ℚ) : (⌊q / (3600 : ℚ)⌋).toNat = ⌊q⌋₊ / 3600 := by
  rw [Int.floor_toNat]
  exact Nat.floor_div_ofNat q 3600

/-- The code branches on hours being positive exactly when the input is at
least one hour. -/
theorem hours_pos_iff (q : ℚ) (h : 0 ≤ q) :
    0 < ⌊q⌋₊ / 3600 ↔ (3600 : ℚ) ≤ q := by
  constructor
  · intro hp
    have h1 : 3600 ≤ ⌊q⌋₊ := by omega
    have h2 := (Nat.le_floor_iff h).1 h1
    exact_mod_cast h2
  · intro h36
    have : (3600 : ℕ) ≤ ⌊q⌋₊ := (Nat.le_floor_iff h).2 (by exact_mod_cast h36)
    omega

/-- Claim C10: formatTime is total (it is a function on all JS inputs) and
agrees everywhere with the specification rendering: "0:00" on undefined,
null, NaN, the infinities and negative values, M:SS with zero-padded seconds
on finite non-negative values, switching to H:MM:SS exactly at one hour, all
components floor-truncated. -/
theorem formatTime_meets_spec (v : JSNumber) :
    formatTime v = formatTimeSpec v := by
  cases v with
  | fin q =>
    by_cases hq : q < 0
    · have hmax : max 0 q = 0 := max_eq_left hq.le
      simp only [formatTime, formatTimeSpec, hmax, if_pos hq]
      norm_num [jsRem, jsTrunc, pad2]
      rfl
    · push_neg at hq
      have hmax : max 0 q = q := max_eq_right hq
      simp only [formatTime, formatTimeSpec, hmax, if_neg (not_lt.2 hq)]
      rw [hours_floor q, jsRem_threesixhundred_floor q hq, jsRem_sixty_floor q hq]
      by_cases h36 : (3600 : ℚ) ≤ q
      · rw [if_pos ((hours_pos_iff q hq).2 h36), if_pos h36]
      · rw [if_neg (fun hp => h36 ((hours_pos_iff q hq).1 hp)), if_neg h36]
        have hT : ⌊q⌋₊ < 3600 := by
          rw [Nat.floor_lt hq]
          exact_mod_cast lt_of_not_le h36
        rw [Nat.mod_eq_of_lt (by omega : ⌊q⌋₊ / 60 < 60)]
  | undef => rfl
  | null => rfl
  | nan => rfl
  | posInf => rfl
  | negInf => rfl

/-! ### CaptureEngine (AudioRecorderService of audio.ts) -/

/-- The Web Audio nodes built by start and the encoder sink
(createMediaStreamDestination feeding the MediaRecorder). -/
inductive AudioNode where
  | source
  | highpass
  | lowpass
  | compressor
  | analyser
  | destination
deriving DecidableEq, Repr

/-- The connect calls issued by start, in program order: the four chain
connections and the tap from the compressor into the encoder sink. -/
def startConnections : List (AudioNode × AudioNode) :=
  [(.source, .highpass), (.highpass, .lowpass), (.lowpass, .compressor),
   (.compressor, .analyser), (.compressor, .destination)]

/-- The numeric configuration applied by start to the filter, compressor and
analyser nodes (frequencies in Hz, threshold and knee in dB, attack and
release in seconds). -/
structure FilterConfig where
  highpassFrequency : ℚ
  lowpassFrequency : ℚ
  compressorThreshold : ℚ
  compressorKnee : ℚ
  compressorRatio : ℚ
  compressorAttack : ℚ
  compressorRelease : ℚ
  analyserFftSize : ℕ
deriving DecidableEq, Repr

def startFilterConfig : FilterConfig :=
  { highpassFrequency := 85
    lowpassFrequency := 10000
    compressorThreshold := -24
    compressorKnee := 30
    compressorRatio := 12
    compressorAttack := 3 / 1000
    compressorRelease := 1 / 4
    analyserFftSize := 256 }

/-- MediaRecorder.state. -/
inductive MediaRecorderState where
  | inactive
  | recording
  | paused
deriving DecidableEq, Repr

/-- The AudioRecorderService instance fields.  An Option node field is none
when the class field is null; the Bool payload records whether the handle is
still connected (node) or has live tracks (stream).  startTime is in
milliseconds (Date.now), pausedTime in seconds, as in the source. -/
structure Recorder where
  sourceNode : Option Bool
  analyserNode : Option Bool
  processorNode : Option Bool
  highpassFilter : Option Bool
  lowpassFilter : Option Bool
  compressorNode : Option Bool
  mediaRecorder : Option MediaRecorderState
  audioChunks : List Nat
  stream : Option Bool
  startTime : ℚ
  pausedTime : ℚ
  intervalId : Option Nat
  dataArray : Bool
  audioLevel : ℚ
deriving DecidableEq, Repr

/-- disposeAudioNodes: disconnects and nulls every processing node. -/
def disposeAudioNodes (s : Recorder) : Recorder :=
  { s with
    sourceNode := none
    analyserNode := none
    processorNode := none
    highpassFilter := none
    lowpassFilter := none
    compressorNode := none }

/-- reset: stops the stream tracks and drops the stream, disposes the nodes,
clears the recorder, chunks, clocks, level and data array, and cancels the
telemetry interval.  Run by the constructor and by the error exit of
start. -/
def reset (s : Recorder) : Recorder :=
  { (disposeAudioNodes s) with
    stream := none
    mediaRecorder := none
    audioChunks := []
    startTime := 0
    pausedTime := 0
    audioLevel := 0
    dataArray := false
    intervalId := none }

/-- updateState of the recorder: the telemetry record pushed to the callback
when queried at clock time t (milliseconds). -/
def updateState (t : ℚ) (s : Recorder) : RecordingState :=
  let isRecording := s.mediaRecorder.elim false (fun st => st ≠ .inactive)
  let isPaused := s.mediaRecorder.elim false (fun st => st = .paused)
  { isRecording := isRecording
    isPaused := isPaused
    duration :=
      if 0 < s.startTime then
        if isPaused then s.pausedTime else (t - s.startTime) / 1000
      else 0
    audioBlob := if s.audioChunks.isEmpty then none else some s.audioChunks
    audioLevel := some s.audioLevel }

/-- The duration the telemetry would report at clock time t. -/
def durationAt (t : ℚ) (s : Recorder) : ℚ :=
  (updateState t s).duration

/-- The recorder state after a successful start at clock time t: start first
runs reset, then acquires the stream, builds and connects every node, creates
the MediaRecorder and starts it, anchors startTime and installs the 100 ms
telemetry interval.  The result does not depend on the prior state. -/
def startedAt (t : ℚ) : Recorder :=
  { sourceNode := some true
    analyserNode := some true
    processorNode := some true
    highpassFilter := some true
    lowpassFilter := some true
    compressorNode := some true
    mediaRecorder := some .recording
    audioChunks := []
    stream := some true
    startTime := t
    pausedTime := 0
    intervalId := some 0
    dataArray := true
    audioLevel := 0 }

/-- ondataavailable: a chunk is pushed only when its size is positive. -/
def dataAvailable (size : Nat) (s : Recorder) : Recorder :=
  if 0 < size then { s with audioChunks := s.audioChunks ++ [size] } else s

/-- pause: only acts when the MediaRecorder is recording; freezes pausedTime
at the elapsed seconds and suspends (suspending the context has no effect on
the fields modelled here). -/
def pause (t : ℚ) (s : Recorder) : Recorder :=
  match s.mediaRecorder with
  | some .recording =>
      { s with
        mediaRecorder := some .paused
        pausedTime := (t - s.startTime) / 1000 }
  | _ => s

/-- resume: only acts when paused; re-anchors startTime so that the elapsed
time excludes the paused interval. -/
def resume (t : ℚ) (s : Recorder) : Recorder :=
  match s.mediaRecorder with
  | some .paused =>
      { s with
        mediaRecorder := some .recording
        startTime := t - s.pausedTime * 1000 }
  | _ => s

/-- stop at clock time t: when the MediaRecorder is not inactive it is
stopped, the onstop handler emits one final telemetry update, stops the
stream tracks and disposes the audio nodes.  The handler does not touch the
telemetry interval.  Returns the new state and the emitted telemetry. -/
def stop (t : ℚ) (s : Recorder) : Recorder × Option RecordingState :=
  match s.mediaRecorder with
  | some st =>
      if st ≠ .inactive then
        let s1 := { s with mediaRecorder := some MediaRecorderState.inactive }
        let telemetry := updateState t s1
        let s2 := disposeAudioNodes { s1 with stream := s1.stream.map (fun _ => false) }
        (s2, some telemetry)
      else (s, none)
  | none => (s, none)

/-! ### Theorems about the processing graph (claim C8) -/

/-- Claim C8, counterexample: start never connects the analyser to the
encoder sink; the sink is fed directly from the compressor, refuting the
claimed chain ending analyser to encoder sink. -/
theorem graph_sink_not_fed_from_analyser_counterexample :
    ((AudioNode.analyser, AudioNode.destination) ∉ startConnections) ∧
    ((AudioNode.compressor, AudioNode.destination) ∈ startConnections) := by
  decide

/-- Claim C8 (amended): start builds the chain source to high-pass (85 Hz) to
low-pass (10 kHz) to compressor (threshold -24 dB, knee 30 dB, ratio 12,
attack 3 ms, release 250 ms), the analyser (fft size 256) is a terminal tap
off the compressor with no outgoing connection, and the encoder sink is fed
from the compressor, not from the analyser. -/
theorem start_builds_processing_chain :
    ((AudioNode.source, AudioNode.highpass) ∈ startConnections ∧
     (AudioNode.highpass, AudioNode.lowpass) ∈ startConnections ∧
     (AudioNode.lowpass, AudioNode.compressor) ∈ startConnections ∧
     (AudioNode.compressor, AudioNode.analyser) ∈ startConnections ∧
     (AudioNode.compressor, AudioNode.destination) ∈ startConnections) ∧
    (startConnections.all (fun e => !(e.1 == AudioNode.analyser)) = true) ∧
    (startConnections.all
      (fun e => !(e.2 == AudioNode.destination) || (e.1 == AudioNode.compressor))
      = true) ∧
    startConnections.length = 5 ∧
    startFilterConfig.highpassFrequency = 85 ∧
    startFilterConfig.lowpassFrequency = 10000 ∧
    startFilterConfig.compressorThreshold = -24 ∧
    startFilterConfig.compressorKnee = 30 ∧
    startFilterConfig.compressorRatio = 12 ∧
    startFilterConfig.compressorAttack = 3 / 1000 ∧
    startFilterConfig.compressorRelease = 1 / 4 ∧
    startFilterConfig.analyserFftSize = 256 := by
  refine ⟨⟨?_, ?_, ?_, ?_, ?_⟩, rfl, rfl, rfl, rfl, rfl, rfl, rfl, rfl, rfl,
    rfl, rfl⟩ <;> simp [startConnections]

/-! ### Theorems about resource release (claim C3) -/

/-- A recorder mid-capture: started at clock 1000 ms with two chunks
delivered. -/
def c3StartedState : Recorder :=
  { startedAt 1000 with audioChunks := [5, 3] }

/-- Claim C3, evaluation at the failing input: stopping the mid-capture
recorder emits the final telemetry with the complete blob, stops the stream
tracks and disposes every node, but LEAVES THE 100 MS TELEMETRY INTERVAL
INSTALLED (intervalId survives), while the error exit of start (reset) does
cancel it — the scoped-release contract of the claim is broken on the normal
stop path. -/
theorem stop_releases_stream_and_nodes_but_not_timer :
    ((stop 3000 c3StartedState).2
        = some { isRecording := false, isPaused := false, duration := 2
                 audioBlob := some [5, 3], audioLevel := some 0 }) ∧
    ((stop 3000 c3StartedState).1.stream = some false) ∧
    ((stop 3000 c3StartedState).1.sourceNode = none) ∧
    ((stop 3000 c3StartedState).1.analyserNode = none) ∧
    ((stop 3000 c3StartedState).1.processorNode = none) ∧
    ((stop 3000 c3StartedState).1.highpassFilter = none) ∧
    ((stop 3000 c3StartedState).1.lowpassFilter = none) ∧
    ((stop 3000 c3StartedState).1.compressorNode = none) ∧
    ((stop 3000 c3StartedState).1.intervalId = some 0) ∧
    ((reset c3StartedState).intervalId = none ∧
     (reset c3StartedState).stream = none ∧
     (reset c3StartedState).sourceNode = none ∧
     (reset c3StartedState).compressorNode = none) := by
  refine ⟨?_, rfl, rfl, rfl, rfl, rfl, rfl, rfl, rfl, rfl, rfl, rfl, rfl⟩
  norm_num [stop, c3StartedState, startedAt, updateState, reset,
    disposeAudioNodes, Option.elim]
  simp

/-! ### Duration accounting (claim C4) -/

/-- A capture session start, then alternating pause and resume at the paired
clock times. -/
def runPauses : List (ℚ × ℚ) → Recorder → Recorder
  | [], s => s
  | (tp, tr) :: rest, s => runPauses rest (resume tr (pause tp s))

/-- The seconds spent in the Recording state for the session start at t0,
pauses and resumes at the given pairs, final query at tf (times in ms). -/
def recordedSeconds (t0 : ℚ) : List (ℚ × ℚ) → ℚ → ℚ
  | [], tf => (tf - t0) / 1000
  | (tp, tr) :: rest, tf => (tp - t0) / 1000 + recordedSeconds tr rest tf

/-- Total milliseconds spent paused. -/
def pauseShift : List (ℚ × ℚ) → ℚ
  | [] => 0
  | (tp, tr) :: rest => (tr - tp) + pauseShift rest

/-- The event times are in real-time order. -/
def timesChainB (prev : ℚ) : List (ℚ × ℚ) → ℚ → Bool
  | [], tf => decide (prev ≤ tf)
  | (tp, tr) :: rest, tf =>
      decide (prev ≤ tp) && decide (tp ≤ tr) && timesChainB tr rest tf

/-- After any pause and resume pairs from a recording state, the recorder is
recording again and startTime has advanced by exactly the paused
milliseconds. -/
theorem runPauses_fields (pairs : List (ℚ × ℚ)) :
    ∀ s : Recorder, s.mediaRecorder = some MediaRecorderState.recording →
      (runPauses pairs s).mediaRecorder = some MediaRecorderState.recording ∧
      (runPauses pairs s).startTime = s.startTime + pauseShift pairs := by
  induction pairs with
  | nil =>
    intro s h
    exact ⟨h, by simp [runPauses, pauseShift]⟩
  | cons pr rest ih =>
    obtain ⟨tp, tr⟩ := pr
    intro s h
    have hp : pause tp s
        = { s with mediaRecorder := some MediaRecorderState.paused
                   pausedTime := (tp - s.startTime) / 1000 } := by
      unfold pause
      rw [h]
    have hr : resume tr (pause tp s)
        = { s with mediaRecorder := some MediaRecorderState.recording
                   pausedTime := (tp - s.startTime) / 1000
                   startTime := tr - ((tp - s.startTime) / 1000) * 1000 } := by
      rw [hp]
      unfold resume
      rfl
    have h2 := ih (resume tr (pause tp s)) (by rw [hr])
    simp only [runPauses]
    refine ⟨h2.1, ?_⟩
    rw [h2.2, hr]
    simp only [pauseShift]
    have hcancel : (tp - s.startTime) / 1000 * (1000 : ℚ) = tp - s.startTime :=
      div_mul_cancel₀ _ (by norm_num)
    rw [hcancel]
    ring

/-- Closed form of the recorded seconds. -/
theorem recordedSeconds_closed (pairs : List (ℚ × ℚ)) :
    ∀ t0 tf : ℚ, recordedSeconds t0 pairs tf = (tf - t0 - pauseShift pairs) / 1000 := by
  induction pairs with
  | nil =>
    intro t0 tf
    simp [recordedSeconds, pauseShift]
  | cons pr rest ih =>
    obtain ⟨tp, tr⟩ := pr
    intro t0 tf
    simp only [recordedSeconds, pauseShift, ih tr tf]
    ring

/-- Under real-time ordering the paused milliseconds are non-negative. -/
theorem pauseShift_nonneg (pairs : List (ℚ × ℚ)) :
    ∀ prev tf : ℚ, timesChainB prev pairs tf = true → 0 ≤ pauseShift pairs := by
  induction pairs with
  | nil =>
    intro prev tf _
    simp [pauseShift]
  | cons pr rest ih =>
    obtain ⟨tp, tr⟩ := pr
    intro prev tf h
    simp only [timesChainB, Bool.and_eq_true, decide_eq_true_eq] at h
    have h1 := ih tr tf h.2
    simp only [pauseShift]
    have : tp ≤ tr := h.1.2
    linarith

/-- Claim C4: for any session start, then pause and resume pairs in real-time
order, then stop, the duration in the final telemetry emitted by stop equals
exactly the time spent recording, paused intervals excluded (exact equality,
hence well within the one-tick 100 ms tolerance of the claim); moreover
pausing freezes the reported duration at the value at the pause moment — the
paused recorder reports the same duration at every later query time. -/
theorem capture_duration_excludes_paused_intervals
    (t0 tf tp : ℚ) (pairs : List (ℚ × ℚ))
    (h0 : 0 < t0) (hchain : timesChainB t0 pairs tf = true) :
    ((stop tf (runPauses pairs (startedAt t0))).2).map RecordingState.duration
        = some (recordedSeconds t0 pairs tf) ∧
    (∀ t : ℚ, durationAt t (pause tp (runPauses pairs (startedAt t0)))
        = recordedSeconds t0 pairs tp) := by
  have hrun := runPauses_fields pairs (startedAt t0) rfl
  have hst : (runPauses pairs (startedAt t0)).startTime = t0 + pauseShift pairs := by
    rw [hrun.2]
    rfl
  have hshift := pauseShift_nonneg pairs t0 tf hchain
  have hpos : 0 < (runPauses pairs (startedAt t0)).startTime := by
    rw [hst]
    linarith
  have hpos2 : 0 < t0 + pauseShift pairs := by linarith
  constructor
  · simp only [stop, hrun.1]
    simp only [updateState, Option.elim, ne_eq, reduceCtorEq, not_false_eq_true,
      if_true, Option.map_some]
    rw [recordedSeconds_closed, hst]
    rw [if_pos hpos2]
    norm_num
    ring
  · intro t
    simp only [pause, hrun.1, durationAt, updateState, Option.elim]
    rw [recordedSeconds_closed, hst]
    rw [if_pos hpos2]
    norm_num
    ring

/-- Witness for claim C4: start at 1000 ms, pause at 3000 ms, resume at
5000 ms, stop at 8000 ms — the final telemetry reports 5 seconds. -/
theorem capture_duration_witness :
    ((stop 8000 (runPauses [((3000 : ℚ), (5000 : ℚ))] (startedAt 1000))).2).map
        RecordingState.duration
      = some (recordedSeconds 1000 [((3000 : ℚ), (5000 : ℚ))] 8000) :=
  (capture_duration_excludes_paused_intervals 1000 8000 9000
    [((3000 : ℚ), (5000 : ℚ))] (by norm_num) (by decide)).1

/-! ### Completion eviction (TranscriptionQueue component effect, claim C6) -/

/-- The eviction effect of the TranscriptionQueue component: whenever the
queue changes it is observed (at clock time now, seconds), and for every item
in completed status a removal is scheduled 5 seconds later (setTimeout 5000
over removeFromTranscriptionQueue).  Failed items are never scheduled. -/
def evictionSchedule (now : ℚ) (q : List TranscriptionQueueItem) :
    List (Nat × ℚ) :=
  (q.filter (fun j => j.status == JobStatus.completed)).map
    (fun j => (j.conversationId, now + 5))

/-- Claim C6: a job that reaches completed at time tc and whose queue change
is observed by the effect at time tobs (tc ≤ tobs ≤ tc + slack) is scheduled
for automatic removal at exactly tobs + 5, which is no earlier than tc + 5
and within slack after tc + 5; and every scheduled eviction stems from a
completed job, so a failed job is never evicted automatically and stays until
removeFromTranscriptionQueue is called for it by the user. -/
theorem completed_evicted_after_grace_failed_never
    (q : List TranscriptionQueueItem) (tc tobs slack : ℚ)
    (j : TranscriptionQueueItem) (hj : j ∈ q)
    (hcomp : j.status = JobStatus.completed)
    (h1 : tc ≤ tobs) (h2 : tobs ≤ tc + slack) :
    ((j.conversationId, tobs + 5) ∈ evictionSchedule tobs q ∧
      tc + 5 ≤ tobs + 5 ∧ tobs + 5 ≤ tc + 5 + slack) ∧
    (∀ p ∈ evictionSchedule tobs q,
      p.2 = tobs + 5 ∧
      ∃ j2 ∈ q, j2.conversationId = p.1 ∧ j2.status = JobStatus.completed) := by
  constructor
  · refine ⟨?_, by linarith, by linarith⟩
    unfold evictionSchedule
    apply List.mem_map_of_mem
    rw [List.mem_filter]
    exact ⟨hj, by simp [hcomp]⟩
  · intro p hp
    unfold evictionSchedule at hp
    rcases List.mem_map.1 hp with ⟨j2, hj2, hpe⟩
    rcases List.mem_filter.1 hj2 with ⟨hj2q, hj2c⟩
    refine ⟨?_, j2, hj2q, ?_, ?_⟩
    · rw [← hpe]
    · rw [← hpe]
    · simpa using hj2c

/-- Witness for claim C6: a queue holding one completed job (id 7) and one
failed job (id 9), completed at 10 and observed at 11 with slack 1. -/
theorem completed_evicted_witness :
    ((7, (11 : ℚ) + 5) ∈ evictionSchedule 11
        [{ conversationId := 7, audioPath := "a.wav"
           status := JobStatus.completed, error := none },
         { conversationId := 9, audioPath := "b.wav"
           status := JobStatus.failed, error := some "network" }] ∧
      (10 : ℚ) + 5 ≤ 11 + 5 ∧ (11 : ℚ) + 5 ≤ 10 + 5 + 1) :=
  (completed_evicted_after_grace_failed_never
    [{ conversationId := 7, audioPath := "a.wav"
       status := JobStatus.completed, error := none },
     { conversationId := 9, audioPath := "b.wav"
       status := JobStatus.failed, error := some "network" }]
    10 11 1
    { conversationId := 7, audioPath := "a.wav"
      status := JobStatus.completed, error := none }
    (by simp) rfl (by norm_num) (by norm_num)).1

/-! ### Queue operation traces (claim C5)

The operations the system performs on the queue: the save handler enqueues the new
conversation (status pending), its background dispatch sets processing via
updateTranscriptionQueueItem, and the outcome of the transcription call sets
completed, or failed together with an error message; removal happens through
removeFromTranscriptionQueue. -/

inductive QueueOp where
  | enq (conversationId : Nat) (audioPath : String)
  | setSt (conversationId : Nat) (status : JobStatus) (error : Option String)
  | rem (conversationId : Nat)
deriving DecidableEq, Repr

/-- The store transition performed by each operation. -/
def applyOp : QueueOp → List TranscriptionQueueItem → List TranscriptionQueueItem
  | .enq i p, q => addToTranscriptionQueue { conversationId := i, audioPath := p } q
  | .setSt i st e, q =>
      updateTranscriptionQueueItem i { status := some st, error := e } q
  | .rem i, q => removeFromTranscriptionQueue i q

def QueueOp.forId : QueueOp → Nat
  | .enq i _ => i
  | .setSt i _ _ => i
  | .rem i => i

/-- Whether an operation addresses conversationId i. -/
def isFor (i : Nat) (op : QueueOp) : Bool :=
  op.forId == i

/-- The sublist of jobs carrying conversationId i. -/
def jobsWith (i : Nat) (q : List TranscriptionQueueItem) :
    List TranscriptionQueueItem :=
  q.filter (fun j => j.conversationId == i)

/-- The status of the job identified by conversationId i: the status of the
first queue entry with that id. -/
def statusOf (i : Nat) (q : List TranscriptionQueueItem) : Option JobStatus :=
  (jobsWith i q).head?.map TranscriptionQueueItem.status

/-- The statuses the job with id i is observed to hold immediately after each
operation addressed to i in the trace. -/
def iStatuses (i : Nat) : List QueueOp → List TranscriptionQueueItem → List JobStatus
  | [], _ => []
  | op :: ops, q =>
      if isFor i op then
        (statusOf i (applyOp op q)).toList ++ iStatuses i ops (applyOp op q)
      else iStatuses i ops (applyOp op q)

/-- Collapse of consecutive repetitions. -/
def dedupCons : List JobStatus → List JobStatus
  | [] => []
  | [a] => [a]
  | a :: b :: rest =>
      if a == b then dedupCons (b :: rest) else a :: dedupCons (b :: rest)

/-- Subsequence test. -/
def isSubseqOf : List JobStatus → List JobStatus → Bool
  | [], _ => true
  | _ :: _, [] => false
  | a :: xs, b :: ys => if a == b then isSubseqOf xs ys else isSubseqOf (a :: xs) ys

/-- The deduplicated sequence of status values the job with id i takes along
a trace of operations from an initial queue. -/
def observedStatuses (i : Nat) (q : List TranscriptionQueueItem)
    (ops : List QueueOp) : List JobStatus :=
  dedupCons (iStatuses i ops q)

/-- mergeItem with a status-and-error update never changes the id. -/
theorem mergeItem_status_id (item : TranscriptionQueueItem) (st : JobStatus)
    (e : Option String) :
    (mergeItem item { status := some st, error := e }).conversationId
      = item.conversationId := rfl

/-- Updating an id that occurs in none of the items is the identity. -/
theorem update_no_match (j : Nat) (u : QueueItemUpdate)
    (q : List TranscriptionQueueItem)
    (h : ∀ x ∈ q, x.conversationId ≠ j) :
    updateTranscriptionQueueItem j u q = q := by
  unfold updateTranscriptionQueueItem
  calc q.map (fun item => if item.conversationId = j then mergeItem item u else item)
      = q.map id := by
        apply List.map_congr_left
        intro a ha
        simp [h a ha]
    _ = q := List.map_id _

/-- Filtering by id commutes with a status-and-error update. -/
theorem jobsWith_update (i j : Nat) (st : JobStatus) (e : Option String)
    (q : List TranscriptionQueueItem) :
    jobsWith i (updateTranscriptionQueueItem j { status := some st, error := e } q)
      = updateTranscriptionQueueItem j { status := some st, error := e }
          (jobsWith i q) := by
  unfold jobsWith updateTranscriptionQueueItem
  rw [List.filter_map]
  congr 1
  apply List.filter_congr
  intro x _
  by_cases hxj : x.conversationId = j
  · simp [Function.comp, hxj, mergeItem_status_id]
  · simp [Function.comp, hxj]

/-- How filtering by id transforms under each operation: an operation for
another id leaves the id-i sublist unchanged, an operation for i acts on the
sublist itself. -/
theorem jobsWith_applyOp (i : Nat) (op : QueueOp)
    (q : List TranscriptionQueueItem) :
    jobsWith i (applyOp op q)
      = if isFor i op then applyOp op (jobsWith i q) else jobsWith i q := by
  cases op with
  | enq j p =>
    by_cases h : j = i
    · subst h
      simp [jobsWith, applyOp, addToTranscriptionQueue, isFor, QueueOp.forId,
        List.filter_append]
    · simp [jobsWith, applyOp, addToTranscriptionQueue, isFor, QueueOp.forId,
        List.filter_append, h]
  | setSt j st e =>
    by_cases h : j = i
    · subst h
      simp only [isFor, QueueOp.forId, beq_self_eq_true, if_true, applyOp]
      exact jobsWith_update j j st e q
    · simp only [isFor, QueueOp.forId, applyOp]
      rw [show ((j == i) = false) from by simp [h], if_neg (by simp)]
      rw [jobsWith_update i j st e q]
      apply update_no_match
      intro x hx
      have := (List.mem_filter.1 hx).2
      simp only [beq_iff_eq] at this
      omega
  | rem j =>
    by_cases h : j = i
    · subst h
      simp only [isFor, QueueOp.forId, beq_self_eq_true, if_true, applyOp,
        removeFromTranscriptionQueue, jobsWith, List.filter_filter]
      apply List.filter_congr
      intro x _
      exact Bool.and_comm _ _
    · simp only [isFor, QueueOp.forId, applyOp, removeFromTranscriptionQueue,
        jobsWith, List.filter_filter]
      rw [show ((j == i) = false) from by simp [h], if_neg (by simp)]
      apply List.filter_congr
      intro x _
      by_cases hxi : x.conversationId = i
      · have hij : ¬i = j := fun hh => h hh.symm
        simp [hxi, hij]
      · simp [hxi]

/-- Filtering by id is idempotent. -/
theorem jobsWith_idem (i : Nat) (q : List TranscriptionQueueItem) :
    jobsWith i (jobsWith i q) = jobsWith i q := by
  simp [jobsWith, List.filter_filter]

/-- The observed status only depends on the id-i sublist. -/
theorem statusOf_jobsWith (i : Nat) (q : List TranscriptionQueueItem) :
    statusOf i (jobsWith i q) = statusOf i q := by
  simp [statusOf, jobsWith_idem]

/-- The status observations of id i along a trace equal the observations of
the trace restricted to the operations for i, run on the id-i sublist. -/
theorem iStatuses_filter (i : Nat) (ops : List QueueOp) :
    ∀ q, iStatuses i ops q
      = iStatuses i (ops.filter (isFor i)) (jobsWith i q) := by
  induction ops with
  | nil => intro q; rfl
  | cons op rest ih =>
    intro q
    by_cases hop : isFor i op = true
    · have hcomm : jobsWith i (applyOp op q) = applyOp op (jobsWith i q) := by
        rw [jobsWith_applyOp, if_pos hop]
      simp only [iStatuses, List.filter_cons, hop, if_true]
      rw [← hcomm, statusOf_jobsWith, ← ih (applyOp op q)]
    · have hop2 : isFor i op = false := by
        simpa using hop
      have hcomm : jobsWith i (applyOp op q) = jobsWith i q := by
        rw [jobsWith_applyOp, if_neg (by simp [hop2])]
      simp only [iStatuses, List.filter_cons, hop2, Bool.false_eq_true,
        if_false]
      rw [ih (applyOp op q), hcomm]

/-- Claim C5, counterexample: the system operations allow a second enqueue of
the same conversationId (a user-initiated retry); because enqueue appends a
duplicate and the status update rewrites every entry with that id, the job
with id 1 is observed to take the statuses pending, processing, completed,
processing — the second dispatch regresses it from completed back to
processing, so the observed sequence is a subsequence of neither allowed
chain. -/
theorem job_status_regression_counterexample :
    observedStatuses 1 []
        [QueueOp.enq 1 "a.wav",
         QueueOp.setSt 1 JobStatus.processing none,
         QueueOp.setSt 1 JobStatus.completed none,
         QueueOp.enq 1 "b.wav",
         QueueOp.setSt 1 JobStatus.processing none]
      = [JobStatus.pending, JobStatus.processing, JobStatus.completed,
         JobStatus.processing] ∧
    isSubseqOf
        (observedStatuses 1 []
          [QueueOp.enq 1 "a.wav",
           QueueOp.setSt 1 JobStatus.processing none,
           QueueOp.setSt 1 JobStatus.completed none,
           QueueOp.enq 1 "b.wav",
           QueueOp.setSt 1 JobStatus.processing none])
        [JobStatus.pending, JobStatus.processing, JobStatus.completed]
      = false ∧
    isSubseqOf
        (observedStatuses 1 []
          [QueueOp.enq 1 "a.wav",
           QueueOp.setSt 1 JobStatus.processing none,
           QueueOp.setSt 1 JobStatus.completed none,
           QueueOp.enq 1 "b.wav",
           QueueOp.setSt 1 JobStatus.processing none])
        [JobStatus.pending, JobStatus.processing, JobStatus.failed]
      = false := by
  refine ⟨?_, ?_, ?_⟩ <;> rfl

/-- Claim C5 (amended): for a conversationId enqueued at most once — the
operations addressed to it form at most the single dispatch chain enqueue,
then set processing, then set completed or failed — and absent from the
initial queue, the observed status sequence is a subsequence of pending,
processing, completed or of pending, processing, failed: it moves only
forward.  (With a second enqueue of the same id the counterexample above
shows a regression.) -/
theorem job_status_monotone_single_enqueue
    (i : Nat) (q0 : List TranscriptionQueueItem) (ops : List QueueOp)
    (h0 : jobsWith i q0 = [])
    (hops : ops.filter (isFor i) = [] ∨
      (∃ p, ops.filter (isFor i) = [QueueOp.enq i p]) ∨
      (∃ p, ops.filter (isFor i)
        = [QueueOp.enq i p, QueueOp.setSt i JobStatus.processing none]) ∨
      (∃ p e t, (t = JobStatus.completed ∨ t = JobStatus.failed) ∧
        ops.filter (isFor i)
          = [QueueOp.enq i p, QueueOp.setSt i JobStatus.processing none,
             QueueOp.setSt i t e])) :
    isSubseqOf (observedStatuses i q0 ops)
        [JobStatus.pending, JobStatus.processing, JobStatus.completed] = true ∨
    isSubseqOf (observedStatuses i q0 ops)
        [JobStatus.pending, JobStatus.processing, JobStatus.failed] = true := by
  unfold observedStatuses
  rw [iStatuses_filter i ops q0, h0]
  rcases hops with h | ⟨p, h⟩ | ⟨p, h⟩ | ⟨p, e, t, ht, h⟩ <;> rw [h]
  · left; rfl
  · left
    simp [iStatuses, applyOp, addToTranscriptionQueue, statusOf, jobsWith,
      isFor, QueueOp.forId, dedupCons, isSubseqOf]
  · left
    simp [iStatuses, applyOp, addToTranscriptionQueue,
      updateTranscriptionQueueItem, mergeItem, statusOf, jobsWith,
      isFor, QueueOp.forId, dedupCons, isSubseqOf]
  · rcases ht with ht | ht <;> subst ht
    · left
      simp [iStatuses, applyOp, addToTranscriptionQueue,
        updateTranscriptionQueueItem, mergeItem, statusOf, jobsWith,
        isFor, QueueOp.forId, dedupCons, isSubseqOf]
    · right
      simp [iStatuses, applyOp, addToTranscriptionQueue,
        updateTranscriptionQueueItem, mergeItem, statusOf, jobsWith,
        isFor, QueueOp.forId, dedupCons, isSubseqOf]

/-- Witness for claim C5: the standard successful dispatch of conversation 7
interleaved with operations on conversation 8. -/
theorem job_status_monotone_witness :
    isSubseqOf (observedStatuses 7 []
        [QueueOp.enq 7 "a.wav", QueueOp.enq 8 "b.wav",
         QueueOp.setSt 7 JobStatus.processing none,
         QueueOp.setSt 8 JobStatus.processing none,
         QueueOp.setSt 7 JobStatus.completed none, QueueOp.rem 8])
        [JobStatus.pending, JobStatus.processing, JobStatus.completed] = true ∨
    isSubseqOf (observedStatuses 7 []
        [QueueOp.enq 7 "a.wav", QueueOp.enq 8 "b.wav",
         QueueOp.setSt 7 JobStatus.processing none,
         QueueOp.setSt 8 JobStatus.processing none,
         QueueOp.setSt 7 JobStatus.completed none, QueueOp.rem 8])
        [JobStatus.pending, JobStatus.processing, JobStatus.failed] = true :=
  job_status_monotone_single_enqueue 7 []
    [QueueOp.enq 7 "a.wav", QueueOp.enq 8 "b.wav",
     QueueOp.setSt 7 JobStatus.processing none,
     QueueOp.setSt 8 JobStatus.processing none,
     QueueOp.setSt 7 JobStatus.completed none, QueueOp.rem 8]
    rfl
    (Or.inr (Or.inr (Or.inr
      ⟨"a.wav", none, JobStatus.completed, Or.inl rfl, rfl⟩)))

end ConversationApp
